import Mathlib

/-!
Verification development for the ppt-to-mp4 conversion service.

The repository consists of two source files:

- app.py: a FastAPI layer holding the job record store (an in-memory
  dictionary of job records mirrored to a per-job status.json document on
  disk), the background conversion worker, and the HTTP endpoints.
- ppt_pipeline.py: the conversion pipeline (settings normalization, slide
  note extraction, per-slide speech synthesis, timed video export through
  the PowerPoint automation surface with a fallback protocol, and the
  ffmpeg concat and mux stages).

This file gives a shallow embedding of those parts of the code that the
verified properties talk about.  Pure Python functions become Lean
functions; the stateful job store becomes explicit state passing over a
StoreState record; the side-effecting pipeline becomes a function of an
explicit environment describing the outcomes of every external call
(synthesis service, export host, media tool, file system), returning the
result together with the ordered trace of calls and progress reports it
makes.  Machine floats that only flow through the code unchanged
(narration durations in seconds) are modelled as rationals.
-/

/-! ## Python string strip, modelled on lists of characters -/

/-- Body of Python str.strip: drop whitespace from the front, then from the
back (the back pass is modelled by reversing, dropping from the front and
reversing again). -/
def pyStripL (l : List Char) : List Char :=
  ((l.dropWhile Char.isWhitespace).reverse.dropWhile Char.isWhitespace).reverse

/-- Model of Python str.strip with no arguments, as used by
normalize_pipeline_settings and extract_slide_notes. -/
def pyStrip (s : String) : String :=
  String.mk (pyStripL s.data)

theorem dropWhile_self_idem {α : Type} (p : α → Bool) (l : List α) :
    (l.dropWhile p).dropWhile p = l.dropWhile p := by
  induction l with
  | nil => rfl
  | cons a t ih =>
    cases h : p a with
    | true => simpa [List.dropWhile_cons, h] using ih
    | false => simp [List.dropWhile_cons, h]

theorem dropWhile_head_false {α : Type} (p : α → Bool) (l : List α) :
    ∀ b bs, l.dropWhile p = b :: bs → p b = false := by
  induction l with
  | nil => intro b bs h; simp at h
  | cons a t ih =>
    intro b bs h
    cases hp : p a with
    | true =>
      rw [List.dropWhile_cons, if_pos hp] at h
      exact ih b bs h
    | false =>
      rw [List.dropWhile_cons, if_neg (by simp [hp])] at h
      injection h with h1 h2
      subst h1
      exact hp

theorem exists_append_dropWhile {α : Type} (p : α → Bool) (l : List α) :
    ∃ t, t ++ l.dropWhile p = l := by
  induction l with
  | nil => exact ⟨[], rfl⟩
  | cons a t ih =>
    cases hp : p a with
    | true =>
      obtain ⟨u, hu⟩ := ih
      exact ⟨a :: u, by simp [List.dropWhile_cons, hp, hu]⟩
    | false => exact ⟨[], by simp [List.dropWhile_cons, hp]⟩

theorem pyStripL_front (l : List Char) :
    (pyStripL l).dropWhile Char.isWhitespace = pyStripL l := by
  unfold pyStripL
  obtain ⟨t, ht⟩ :=
    exists_append_dropWhile Char.isWhitespace (l.dropWhile Char.isWhitespace).reverse
  cases hB : ((l.dropWhile Char.isWhitespace).reverse.dropWhile Char.isWhitespace).reverse with
  | nil => simp
  | cons b bs =>
    have hA : l.dropWhile Char.isWhitespace = b :: (bs ++ t.reverse) := by
      have h2 := congrArg List.reverse ht
      rw [List.reverse_append, List.reverse_reverse] at h2
      rw [hB] at h2
      simpa using h2.symm
    have hb := dropWhile_head_false Char.isWhitespace l _ _ hA
    simp [List.dropWhile_cons, hb]

theorem pyStripL_idem (l : List Char) : pyStripL (pyStripL l) = pyStripL l := by
  have h1 : pyStripL (pyStripL l)
      = ((pyStripL l).reverse.dropWhile Char.isWhitespace).reverse := by
    show (((pyStripL l).dropWhile Char.isWhitespace).reverse.dropWhile Char.isWhitespace).reverse
        = ((pyStripL l).reverse.dropWhile Char.isWhitespace).reverse
    rw [pyStripL_front l]
  rw [h1]
  show (((((l.dropWhile Char.isWhitespace).reverse.dropWhile
      Char.isWhitespace).reverse).reverse.dropWhile Char.isWhitespace)).reverse = pyStripL l
  rw [List.reverse_reverse, dropWhile_self_idem]
  rfl

theorem pyStrip_idem (s : String) : pyStrip (pyStrip s) = pyStrip s :=
  congrArg String.mk (pyStripL_idem s.data)

/-! ## Pipeline settings: defaults and the normalizer (ppt_pipeline.py lines 12-23 and 117-127) -/

/-- Module constant VOICE in ppt_pipeline.py. -/
def VOICE : String := "en-US-JennyNeural"

/-- Module constant DEFAULT_SILENCE_HEAD (seconds of padding before each
slide narration, currently zero). -/
def DEFAULT_SILENCE_HEAD : ℚ := 0

/-- Module constant DEFAULT_SILENCE_TAIL (seconds of padding after each
slide narration, currently zero). -/
def DEFAULT_SILENCE_TAIL : ℚ := 0

/-- A fully populated settings record, the output type of
normalize_pipeline_settings. -/
structure PipelineSettings where
  voice : String
  speaking_rate : String
  resolution : Int
  fps : Int
  quality : Int
deriving Repr, DecidableEq

/-- Module constant DEFAULT_PIPELINE_SETTINGS in ppt_pipeline.py. -/
def DEFAULT_PIPELINE_SETTINGS : PipelineSettings :=
  { voice := VOICE
    speaking_rate := "0%"
    resolution := 1080
    fps := 30
    quality := 100 }

/-- Raw user-supplied settings: any subset of the five keys may be present
(a missing key and an explicit None both appear here as none, matching the
merge in normalize_pipeline_settings which skips None values). -/
structure RawSettings where
  voice : Option String
  speaking_rate : Option String
  resolution : Option Int
  fps : Option Int
  quality : Option Int
deriving Repr, DecidableEq

/-- Model of normalize_pipeline_settings (ppt_pipeline.py lines 117-127):
merge the defaults with the non-None supplied fields, strip the two string
fields falling back to the defaults when the stripped value is empty, and
clamp the three numeric fields into their documented ranges. -/
def normalize_pipeline_settings (settings : Option RawSettings) : PipelineSettings :=
  let mv := match settings with
    | some s => s.voice.getD VOICE
    | none => VOICE
  let mr := match settings with
    | some s => s.speaking_rate.getD "0%"
    | none => "0%"
  let mres := match settings with
    | some s => s.resolution.getD 1080
    | none => 1080
  let mfps := match settings with
    | some s => s.fps.getD 30
    | none => 30
  let mq := match settings with
    | some s => s.quality.getD 100
    | none => 100
  { voice := if pyStrip mv = "" then VOICE else pyStrip mv
    speaking_rate := if pyStrip mr = "" then "0%" else pyStrip mr
    resolution := max 240 (min 2160 mres)
    fps := max 1 (min 60 mfps)
    quality := max 1 (min 100 mq) }

/-- View a normalized record as raw input again, with every key present;
this is what happens when a normalized record is fed back into the
normalizer. -/
def toRaw (s : PipelineSettings) : RawSettings :=
  { voice := some s.voice
    speaking_rate := some s.speaking_rate
    resolution := some s.resolution
    fps := some s.fps
    quality := some s.quality }

/-! ## Slide notes (ppt_pipeline.py extract_slide_notes, lines 130-144) -/

/-- One entry of the list returned by extract_slide_notes: 1-based slide
index, stripped note text, and the has_notes flag. -/
structure SlideNote where
  slide : Nat
  text : String
  has_notes : Bool
deriving Repr, DecidableEq

/-- The enumerate loop of extract_slide_notes, carrying the 1-based index.
A slide without a notes frame contributes an empty raw text, so the deck is
modelled as the list of raw note texts in slide order. -/
def extractNotesFrom (idx : Nat) : List String → List SlideNote
  | [] => []
  | raw :: rest =>
    { slide := idx, text := pyStrip raw, has_notes := pyStrip raw != "" }
      :: extractNotesFrom (idx + 1) rest

/-- Model of extract_slide_notes: slides are numbered from 1 and the note
text is stripped. -/
def extract_slide_notes (deck : List String) : List SlideNote :=
  extractNotesFrom 1 deck

/-- The slide_notes list built in run_pipeline (line 196): pairs of slide
index and stripped text. -/
def slideNotes (deck : List String) : List (Nat × String) :=
  (extract_slide_notes deck).map (fun n => (n.slide, n.text))

/-! ## Job records and the job record store (app.py) -/

/-- The telemetry dictionary produced at the end of run_pipeline
(per-stage elapsed seconds). -/
structure TelemetryData where
  tts_seconds : ℚ
  ppt_export_seconds : ℚ
  mux_seconds : ℚ
  total_seconds : ℚ
deriving Repr, DecidableEq

/-- One job record, the value stored in the jobs dictionary of app.py and
serialized to the status.json document.  All fields written anywhere in
app.py appear here; final_video_path is absent (none) until the success
update adds it.  Timestamps are modelled by an abstract counter. -/
structure JobRecord where
  job_id : String
  status : String
  stage : String
  progress : Nat
  message : String
  output : Option String
  filename : String
  settings : PipelineSettings
  telemetry : Option TelemetryData
  created_at : Nat
  updated_at : Nat
  log : String
  final_video_path : Option String
deriving Repr, DecidableEq

/-- The arguments of one update_job call: the three named parameters plus
the keyword arguments that app.py actually passes (stage, output,
final_video_path, telemetry).  none means the argument was not supplied;
for output, some none models passing an explicit None value. -/
structure UpdateArgs where
  status : Option String := none
  progress : Option Nat := none
  message : Option String := none
  stage : Option String := none
  output : Option (Option String) := none
  final_video_path : Option String := none
  telemetry : Option TelemetryData := none
deriving Repr, DecidableEq

/-- The state the job record store operates on: the in-memory jobs map,
the persisted status.json documents keyed by job id, the append-only event
logs keyed by log path, and the clock used for updated_at stamps.
Persistence stores the full record; for records made of strings, integers,
null and nested records the json.dumps/json.loads round trip used by
app.py is lossless, so the serialization itself is not modelled. -/
structure StoreState where
  jobs : String → Option JobRecord
  disk : String → Option JobRecord
  logs : String → List String
  clock : Nat

/-- Model of persist_status (app.py lines 104-111): rewrite the full
status.json document of the given job from the in-memory record; no-op if
the id is unknown. -/
def persist_status (s : StoreState) (job_id : String) : StoreState :=
  match s.jobs job_id with
  | none => s
  | some job =>
    { s with disk := fun k => if k = job_id then some job else s.disk k }

/-- Model of append_log (app.py lines 144-154): append one line to the
event log named by the job record; no-op if the id is unknown or the
record has no log path. -/
def append_log (s : StoreState) (job_id : String) (message : String) : StoreState :=
  match s.jobs job_id with
  | none => s
  | some job =>
    if job.log = "" then s
    else { s with logs := fun p => if p = job.log then s.logs p ++ [message] else s.logs p }

/-- Model of load_job (app.py lines 114-122): return the in-memory record
if present, otherwise read the persisted document, cache it in memory and
return it; none if neither exists. -/
def load_job (s : StoreState) (job_id : String) : Option JobRecord × StoreState :=
  match s.jobs job_id with
  | some j => (some j, s)
  | none =>
    match s.disk job_id with
    | some d => (some d, { s with jobs := fun k => if k = job_id then some d else s.jobs k })
    | none => (none, s)

/-- The field merge of update_job (app.py lines 168-177): a falsy status
or message is ignored, a supplied progress is always written, the keyword
arguments that app.py passes are written unconditionally, and updated_at
is stamped. -/
def applyArgs (job : JobRecord) (args : UpdateArgs) (clock : Nat) : JobRecord :=
  let job1 := match args.status with
    | some st => if st = "" then job else { job with status := st }
    | none => job
  let job2 := match args.progress with
    | some p => { job1 with progress := p }
    | none => job1
  let job3 := match args.message with
    | some m => if m = "" then job2 else { job2 with message := m }
    | none => job2
  let job4 := match args.stage with
    | some st => { job3 with stage := st }
    | none => job3
  let job5 := match args.output with
    | some o => { job4 with output := o }
    | none => job4
  let job6 := match args.final_video_path with
    | some p => { job5 with final_video_path := some p }
    | none => job5
  let job7 := match args.telemetry with
    | some t => { job6 with telemetry := some t }
    | none => job6
  { job7 with updated_at := clock }

/-- The append_log call made from inside update_job (app.py line 174): it
runs only when a truthy message was supplied. -/
def logStep (s : StoreState) (job_id : String) : Option String → StoreState
  | some m => if m = "" then s else append_log s job_id m
  | none => s

/-- Model of update_job (app.py lines 157-178): merge the supplied fields
into the record through applyArgs, append the message to the event log,
and re-persist the whole record.  Returns the state unchanged if the job
id is unknown. -/
def update_job (s : StoreState) (job_id : String) (args : UpdateArgs) : StoreState :=
  match s.jobs job_id with
  | none => s
  | some job =>
    let s1 : StoreState :=
      { s with
        jobs := fun k => if k = job_id then some (applyArgs job args s.clock) else s.jobs k
        clock := s.clock + 1 }
    persist_status (logStep s1 job_id args.message) job_id

/-- The job record created by the convert endpoint (app.py lines 299-312):
status processing, stage upload, progress 5. -/
def createJobRecord (job_id filename : String) (settings : PipelineSettings)
    (clock : Nat) : JobRecord :=
  { job_id := job_id
    status := "processing"
    stage := "upload"
    progress := 5
    message := "Saving PPT"
    output := none
    filename := filename
    settings := settings
    telemetry := none
    created_at := clock
    updated_at := clock
    log := "jobs/" ++ job_id ++ "/status.log"
    final_video_path := none }

/-- The store state after a process restart: the in-memory map is empty,
only the persisted documents and logs survive. -/
def restartState (s : StoreState) : StoreState :=
  { jobs := fun _ => none, disk := s.disk, logs := s.logs, clock := 0 }

/-! ## The pipeline environment and event trace -/

/-- One observable action of the pipeline: a progress report through the
progress callback, the notes extraction, or a call to one of the external
engines (synthesis service, media tool probe, export host open, primary
timed export, save-as fallback, concat, mux). -/
inductive Event
  | report (stage : String) (progress : Nat) (message : String)
  | extractNotes
  | ttsCall (slide : Nat)
  | probeCall (slide : Nat)
  | exportOpen
  | applyTimings (pass : Nat) (timings : List (Nat × ℚ))
  | createVideoCall
  | saveAsCall (attempt : Nat)
  | probeVideoCall
  | concatCall
  | muxCall
deriving Repr, DecidableEq

/-- Everything outside the program that run_pipeline reacts to: the
credential environment variables (empty string models both unset and
empty, which Python treats alike through falsiness), the deck, the outcome
of every synthesis request, the measured narration durations, and the
behaviour of the export host, file system and media tool at each decision
point of the export fallback protocol and the mux stage. -/
structure PipelineEnv where
  azureKey : String := "key"
  azureRegion : String := "eastus"
  outDir : String := "jobs/j"
  deck : List String := []
  ttsOk : Nat → Bool := fun _ => true
  probeDuration : Nat → ℚ := fun _ => 1
  saveCopyOk : Bool := true
  createVideoStatus : Nat := 3
  rawExistsAfterCreate : Bool := true
  saveAs1Ok : Bool := true
  fallbackFileExists : Bool := true
  rawNonEmpty : Bool := true
  saveAs2Ok : Bool := true
  rawNonEmptyRetry : Bool := true
  rawReadable : Bool := true
  concatOk : Bool := true
  narrationExists : Bool := true
  muxOk : Bool := true
  telemetryData : TelemetryData := ⟨0, 0, 0, 0⟩

/-- The record returned by run_pipeline on success. -/
structure PipelineResult where
  final_video : String
  telemetry : TelemetryData
  notes_with_text : Nat
  slides_total : Nat
deriving Repr, DecidableEq

/-- The per-slide synthesis loop of run_pipeline (lines 203-219): slides
with empty text are skipped; for the others a synthesis request is issued
and, on success, the written audio file is probed and its duration
recorded under the slide index; a failed request aborts the loop. -/
def ttsLoop (env : PipelineEnv) : List (Nat × String) → Except String (List (Nat × ℚ)) × List Event
  | [] => (.ok [], [])
  | (i, text) :: rest =>
    if text = "" then ttsLoop env rest
    else if env.ttsOk i then
      match ttsLoop env rest with
      | (.ok ds, evs) =>
        (.ok ((i, env.probeDuration i) :: ds), .ttsCall i :: .probeCall i :: evs)
      | (.error e, evs) => (.error e, .ttsCall i :: .probeCall i :: evs)
    else (.error "Azure TTS request failed", [.ttsCall i])

/-- The durations dictionary the loop produces when every request
succeeds: one entry per slide with non-empty stripped notes. -/
def slideDurations (env : PipelineEnv) (notes : List (Nat × String)) : List (Nat × ℚ) :=
  notes.filterMap fun p => if p.2 = "" then none else some (p.1, env.probeDuration p.1)

/-- Dictionary lookup audio_durations.get(i) on the association list. -/
def dictGet (ds : List (Nat × ℚ)) (i : Nat) : Option ℚ :=
  (ds.find? fun p => p.1 == i).map fun p => p.2

/-- The first timing loop of run_pipeline (lines 237-242): for every slide
of the open deck, AdvanceTime is set to the measured narration duration
(fallback 2.0 when the slide has no recorded duration) plus the head and
tail silence padding. -/
def applyTimingsFirstOpen (slideCount : Nat) (ds : List (Nat × ℚ)) : List (Nat × ℚ) :=
  (List.range slideCount).map fun k =>
    (k + 1, (dictGet ds (k + 1)).getD 2 + DEFAULT_SILENCE_HEAD + DEFAULT_SILENCE_TAIL)

/-- The second timing loop (lines 262-267), reapplied to the reopened
saved copy; its body is the same formula over the same recorded durations,
with no recomputation. -/
def applyTimingsReopened (slideCount : Nat) (ds : List (Nat × ℚ)) : List (Nat × ℚ) :=
  (List.range slideCount).map fun k =>
    (k + 1, (dictGet ds (k + 1)).getD 2 + DEFAULT_SILENCE_HEAD + DEFAULT_SILENCE_TAIL)

/-- The status poll and fallback save of the export protocol (lines
290-317): poll CreateVideoStatus until it leaves in-progress (the
environment records the terminal value); on non-success try the save-as
fallback to the same destination and poll for the file up to the bounded
wait, after which the rendered-file flag is success; on success the flag
is whether the destination exists.  The Bool payload is the observed
existence of the destination file at the check on line 319. -/
def exportFallback (env : PipelineEnv) : Except String Bool × List Event :=
  if env.createVideoStatus ≠ 3 then
    if env.saveAs1Ok then
      if env.fallbackFileExists then (.ok true, [.saveAsCall 1])
      else
        (.error "PowerPoint failed to render video. Tried CreateVideo and SaveAs MP4.",
          [.saveAsCall 1])
    else
      (.error "PowerPoint failed to render video. SaveAs fallback also failed.",
        [.saveAsCall 1])
  else (.ok env.rawExistsAfterCreate, [])

/-- The non-empty wait of lines 323-352: poll the destination size up to
the bounded wait; if it stays zero, retry the save-as fallback once and
poll again; a zero-byte file after both waits is fatal. -/
def exportSizeWait (env : PipelineEnv) : Except String Unit × List Event :=
  if env.rawNonEmpty then (.ok (), [])
  else if env.saveAs2Ok then
    if env.rawNonEmptyRetry then (.ok (), [.saveAsCall 2])
    else (.error "PowerPoint produced an empty or locked file.", [.saveAsCall 2])
  else
    (.error "PowerPoint produced an empty or locked file and SaveAs retry failed.",
      [.saveAsCall 2])

/-- The export stage of run_pipeline (lines 229-365): open the deck, apply
the synchronized timings, save a working copy, reopen it, reapply the same
timings, run the primary timed export with its fallback protocol, wait for
a non-empty readable file, and probe the rendered duration for the
diagnostic log line. -/
def exportStage (env : PipelineEnv) (ds : List (Nat × ℚ)) : Except String Unit × List Event :=
  if env.saveCopyOk then
    match exportFallback env with
    | (.error e, evs) =>
      (.error e,
        [.exportOpen, .applyTimings 1 (applyTimingsFirstOpen env.deck.length ds),
          .applyTimings 2 (applyTimingsReopened env.deck.length ds), .createVideoCall] ++ evs)
    | (.ok fileSeen, evs) =>
      if fileSeen then
        match exportSizeWait env with
        | (.error e, evs2) =>
          (.error e,
            [.exportOpen, .applyTimings 1 (applyTimingsFirstOpen env.deck.length ds),
              .applyTimings 2 (applyTimingsReopened env.deck.length ds), .createVideoCall]
              ++ evs ++ evs2)
        | (.ok _, evs2) =>
          if env.rawReadable then
            (.ok (),
              [.exportOpen, .applyTimings 1 (applyTimingsFirstOpen env.deck.length ds),
                .applyTimings 2 (applyTimingsReopened env.deck.length ds), .createVideoCall]
                ++ evs ++ evs2 ++ [.probeVideoCall])
          else
            (.error "File not readable, locked.",
              [.exportOpen, .applyTimings 1 (applyTimingsFirstOpen env.deck.length ds),
                .applyTimings 2 (applyTimingsReopened env.deck.length ds), .createVideoCall]
                ++ evs ++ evs2)
      else
        (.error "PowerPoint did not produce the video file.",
          [.exportOpen, .applyTimings 1 (applyTimingsFirstOpen env.deck.length ds),
            .applyTimings 2 (applyTimingsReopened env.deck.length ds), .createVideoCall]
            ++ evs)
  else
    (.error "PowerPoint could not save a temp copy.",
      [.exportOpen, .applyTimings 1 (applyTimingsFirstOpen env.deck.length ds)])

/-- The concat and mux stage (lines 375-406): the concat subprocess, the
narration existence check, and the mux subprocess, each fatal on
failure. -/
def muxStage (env : PipelineEnv) : Except String Unit × List Event :=
  if env.concatOk then
    if env.narrationExists then
      if env.muxOk then (.ok (), [.concatCall, .muxCall])
      else (.error "ffmpeg mux failed.", [.concatCall, .muxCall])
    else (.error "Narration not found.", [.concatCall])
  else (.error "ffmpeg concat failed.", [.concatCall])

/-- The descriptive message of the ValueError raised when the synthesis
credentials are absent (lines 179-185). -/
def credsErrorMessage : String :=
  "Missing Azure TTS credentials. Set AZURE_TTS_KEY and AZURE_TTS_REGION before starting the server."

/-- The ValueError message raised when no slide produced notes (line 222). -/
def noNotesErrorMessage : String :=
  "No speaker notes found for TTS. Add notes to at least one slide before converting."

/-- Model of run_pipeline (ppt_pipeline.py lines 147-424): credential
check, notes report and extraction, synthesis report and loop, the
mandatory-narration check, export report and stage, mux report and stage,
and the result record.  The second component is the ordered trace of
reports and external calls. -/
def run_pipeline (env : PipelineEnv) : Except String PipelineResult × List Event :=
  if env.azureKey = "" ∨ env.azureRegion = "" then
    (.error credsErrorMessage, [])
  else
    match ttsLoop env (slideNotes env.deck) with
    | (.error e, evs) =>
      (.error e,
        [.report "notes" 12 "Extracting slide notes", .extractNotes,
          .report "tts" 35 "Generating Azure TTS from notes"] ++ evs)
    | (.ok ds, evs) =>
      if ds = [] then
        (.error noNotesErrorMessage,
          [.report "notes" 12 "Extracting slide notes", .extractNotes,
            .report "tts" 35 "Generating Azure TTS from notes"] ++ evs)
      else
        match exportStage env ds with
        | (.error e, evs2) =>
          (.error e,
            [.report "notes" 12 "Extracting slide notes", .extractNotes,
              .report "tts" 35 "Generating Azure TTS from notes"] ++ evs
              ++ [.report "ppt_export" 60 "Exporting animated video via PowerPoint"] ++ evs2)
        | (.ok _, evs2) =>
          match muxStage env with
          | (.error e, evs3) =>
            (.error e,
              [.report "notes" 12 "Extracting slide notes", .extractNotes,
                .report "tts" 35 "Generating Azure TTS from notes"] ++ evs
                ++ [.report "ppt_export" 60 "Exporting animated video via PowerPoint"] ++ evs2
                ++ [.report "mux" 85 "FFmpeg muxing"] ++ evs3)
          | (.ok _, evs3) =>
            (.ok
              { final_video := env.outDir ++ "/final.mp4"
                telemetry := env.telemetryData
                notes_with_text :=
                  ((slideNotes env.deck).filter fun p => p.2 != "").length
                slides_total := (slideNotes env.deck).length },
              [.report "notes" 12 "Extracting slide notes", .extractNotes,
                .report "tts" 35 "Generating Azure TTS from notes"] ++ evs
                ++ [.report "ppt_export" 60 "Exporting animated video via PowerPoint"] ++ evs2
                ++ [.report "mux" 85 "FFmpeg muxing"] ++ evs3)

/-- The update_job arguments produced by the on_progress callback of
run_conversion_async (app.py lines 185-186) for one progress report. -/
def onProgressArgs : Event → Option UpdateArgs
  | .report st p m =>
    some { status := none, progress := some p, message := some m, stage := some st,
           output := none, final_video_path := none, telemetry := none }
  | _ => none

/-- The terminal update_job call of run_conversion_async (app.py lines
199-216): completed with progress 100 on success, error with progress 100
and a message carrying the exception text on failure. -/
def terminalUpdate (env : PipelineEnv) : UpdateArgs :=
  match (run_pipeline env).1 with
  | .ok r =>
    { status := some "completed", progress := some 100,
      message := some "Video ready for download", stage := none,
      output := some (some r.final_video),
      final_video_path := some (env.outDir ++ "/final.mp4"),
      telemetry := some r.telemetry }
  | .error e =>
    { status := some "error", progress := some 100,
      message := some ("Conversion failed: " ++ e), stage := none,
      output := some none, final_video_path := none, telemetry := none }

/-- The full sequence of update_job argument records one job run produces
after creation: one update per progress report, then the terminal
update. -/
def jobRunUpdates (env : PipelineEnv) : List UpdateArgs :=
  (run_pipeline env).2.filterMap onProgressArgs ++ [terminalUpdate env]

/-- The progress value of a report event. -/
def progressOfEvent : Event → Option Nat
  | .report _ p _ => some p
  | _ => none

/-- The progress checkpoints appearing in an event trace, in order. -/
def reportsOf (evs : List Event) : List Nat :=
  evs.filterMap progressOfEvent

/-- Whether an event is a request to the voice synthesis service. -/
def isSynthesisCall : Event → Bool
  | .ttsCall _ => true
  | _ => false

/-- Whether an event is a call to any external engine: the synthesis
service, the export host, or the media tool. -/
def isExternalCall : Event → Bool
  | .ttsCall _ => true
  | .probeCall _ => true
  | .exportOpen => true
  | .applyTimings _ _ => true
  | .createVideoCall => true
  | .saveAsCall _ => true
  | .probeVideoCall => true
  | .concatCall => true
  | .muxCall => true
  | _ => false

/-! ## The download endpoint (app.py lines 392-405) -/

/-- The response of the download endpoint: either the not-ready JSON body
or a file response for the final video. -/
inductive DownloadResponse
  | notReady (status message : String)
  | fileResponse (path mediaType filename : String)
deriving Repr, DecidableEq

/-- The path the download endpoint checks for a given job id. -/
def finalVideoPath (job_id : String) : String :=
  "jobs/" ++ job_id ++ "/final.mp4"

/-- Model of download_video: the handler runs in a server whose state
includes the file system and the jobs map, but its body only tests the
existence of final.mp4 under the job directory; the job map argument is
never consulted. -/
def download_video (fileExistsFn : String → Bool)
    (jobsMap : String → Option JobRecord) (job_id : String) : DownloadResponse :=
  if fileExistsFn (finalVideoPath job_id) then
    .fileResponse (finalVideoPath job_id) "video/mp4" "presentation.mp4"
  else
    .notReady "error" "Video not found. Job may not be completed yet."

/-! ## Concrete inputs used by the closed witness theorems -/

/-- A store holding one job, used by the witnesses of the store claims. -/
def settingsW : PipelineSettings := normalize_pipeline_settings none

/-- A concrete job record for the store witnesses. -/
def jobW : JobRecord := createJobRecord "job-1" "deck.pptx" settingsW 0

/-- A concrete store with jobW both in memory and on disk. -/
def storeW : StoreState :=
  { jobs := fun k => if k = "job-1" then some jobW else none
    disk := fun k => if k = "job-1" then some jobW else none
    logs := fun _ => []
    clock := 1 }

/-- A concrete empty store for the unknown-id witness. -/
def storeEmptyW : StoreState :=
  { jobs := fun _ => none, disk := fun _ => none, logs := fun _ => [], clock := 0 }

/-- Concrete update arguments for the store witnesses. -/
def argsW : UpdateArgs :=
  { status := some "completed", progress := some 100, message := some "done" }

/-- Environment with a deck whose slides all have blank notes. -/
def envNoNotesW : PipelineEnv := { deck := ["", "   "] }

/-- Environment with missing synthesis credentials and a deck with
notes. -/
def envNoCredsW : PipelineEnv := { azureKey := "", deck := ["hello"] }

/-- Environment whose primary export call ends non-success but whose first
fallback save produces a non-empty file. -/
def envFallbackW : PipelineEnv := { deck := ["hello"], createVideoStatus := 2 }

/-- Environment for the timing witness: three slides, notes on slides one
and three only. -/
def envTimingW : PipelineEnv :=
  { deck := ["note one", "", "note three"], probeDuration := fun i => (i : ℚ) }

/-- A concrete file system for the download witness: only job j has a
final video. -/
def fsW : String → Bool := fun p => p = "jobs/j/final.mp4"

/-! ## Theorems -/

theorem stripOrDefault_idem (d v : String) (hd : pyStrip d = d) (hd2 : d ≠ "") :
    (if pyStrip (if pyStrip v = "" then d else pyStrip v) = ""
      then d else pyStrip (if pyStrip v = "" then d else pyStrip v))
    = (if pyStrip v = "" then d else pyStrip v) := by
  by_cases h : pyStrip v = ""
  · simp [h, hd, hd2]
  · simp [h, pyStrip_idem]

theorem clampInt_idem (lo hi x : Int) (h : lo ≤ hi) :
    max lo (min hi (max lo (min hi x))) = max lo (min hi x) := by
  rcases le_total x hi with hx | hx <;> rcases le_total lo x with hl | hl <;>
    simp [max_def, min_def] <;> omega

/-- Claim C6: normalize_pipeline_settings is idempotent (re-normalizing its
own output yields the same record), missing or None fields fall back to the
documented defaults, and out-of-range numeric fields are clamped to the
nearest documented bound (resolution into the range 240 to 2160, fps into
1 to 60 so fps equal to 999 becomes 60, quality into 1 to 100) rather than
rejected. -/
theorem c6_normalize_idem_defaults_clamp :
    (∀ s : Option RawSettings,
      normalize_pipeline_settings (some (toRaw (normalize_pipeline_settings s)))
        = normalize_pipeline_settings s)
    ∧ normalize_pipeline_settings none = DEFAULT_PIPELINE_SETTINGS
    ∧ normalize_pipeline_settings
        (some { voice := none, speaking_rate := none, resolution := none,
                fps := none, quality := none }) = DEFAULT_PIPELINE_SETTINGS
    ∧ (∀ s : RawSettings, (normalize_pipeline_settings (some s)).resolution
        = max 240 (min 2160 (s.resolution.getD 1080)))
    ∧ (∀ s : RawSettings, (normalize_pipeline_settings (some s)).fps
        = max 1 (min 60 (s.fps.getD 30)))
    ∧ (∀ s : RawSettings, (normalize_pipeline_settings (some s)).quality
        = max 1 (min 100 (s.quality.getD 100)))
    ∧ (normalize_pipeline_settings
        (some { voice := none, speaking_rate := none, resolution := none,
                fps := some 999, quality := none })).fps = 60 := by
  refine ⟨?_, by decide, by decide, fun s => rfl, fun s => rfl, fun s => rfl, by decide⟩
  intro s
  have hv : pyStrip VOICE = VOICE := by decide
  have hv2 : VOICE ≠ "" := by decide
  have hr : pyStrip "0%" = "0%" := by decide
  have hr2 : "0%" ≠ ("" : String) := by decide
  cases s with
  | none =>
    simp only [normalize_pipeline_settings, toRaw, Option.getD_some,
      PipelineSettings.mk.injEq]
    exact ⟨stripOrDefault_idem VOICE VOICE hv hv2,
      stripOrDefault_idem "0%" "0%" hr hr2,
      clampInt_idem 240 2160 1080 (by omega),
      clampInt_idem 1 60 30 (by omega),
      clampInt_idem 1 100 100 (by omega)⟩
  | some s0 =>
    simp only [normalize_pipeline_settings, toRaw, Option.getD_some,
      PipelineSettings.mk.injEq]
    exact ⟨stripOrDefault_idem VOICE (s0.voice.getD VOICE) hv hv2,
      stripOrDefault_idem "0%" (s0.speaking_rate.getD "0%") hr hr2,
      clampInt_idem 240 2160 _ (by omega),
      clampInt_idem 1 60 _ (by omega),
      clampInt_idem 1 100 _ (by omega)⟩

/-- Claim C9: for every job id not present in the in-memory job map,
update_job returns without raising and changes no state at all: the
in-memory map, the persisted status documents, the event logs and the
clock are left exactly as they were. -/
theorem c9_update_unknown_id_noop (s : StoreState) (job_id : String) (args : UpdateArgs)
    (h : s.jobs job_id = none) : update_job s job_id args = s := by
  unfold update_job
  rw [h]

/-- Witness for claim C9 at a concrete empty store. -/
theorem c9_update_unknown_id_noop_witness :
    storeEmptyW.jobs "missing" = none
      ∧ update_job storeEmptyW "missing" argsW = storeEmptyW :=
  ⟨rfl, c9_update_unknown_id_noop storeEmptyW "missing" argsW rfl⟩

theorem append_log_jobs (s : StoreState) (job_id m : String) :
    (append_log s job_id m).jobs = s.jobs := by
  unfold append_log
  cases s.jobs job_id with
  | none => rfl
  | some j =>
    by_cases hl : j.log = ""
    · simp [hl]
    · simp [hl]

theorem logStep_jobs (s : StoreState) (job_id : String) (m : Option String) :
    (logStep s job_id m).jobs = s.jobs := by
  cases m with
  | none => rfl
  | some m0 =>
    by_cases hm : m0 = ""
    · simp [logStep, hm]
    · simp [logStep, hm, append_log_jobs]

theorem persist_status_known (s : StoreState) (job_id : String) (j : JobRecord)
    (h : s.jobs job_id = some j) :
    (persist_status s job_id).disk job_id = some j
      ∧ (persist_status s job_id).jobs job_id = some j := by
  unfold persist_status
  rw [h]
  simp [h]

/-- Claim C3: after an update_job call on a known job id returns, the
persisted status document of that job equals its in-memory record, and
reloading through load_job after a process restart (empty in-memory map)
yields exactly the last in-memory record. -/
theorem c3_persist_matches_memory (s : StoreState) (job_id : String) (args : UpdateArgs)
    (j : JobRecord) (h : s.jobs job_id = some j) :
    (update_job s job_id args).disk job_id = (update_job s job_id args).jobs job_id
      ∧ (load_job (restartState (update_job s job_id args)) job_id).1
          = (update_job s job_id args).jobs job_id := by
  have hup : update_job s job_id args
      = persist_status
          (logStep
            { s with
              jobs := fun k => if k = job_id then some (applyArgs j args s.clock) else s.jobs k
              clock := s.clock + 1 } job_id args.message) job_id := by
    unfold update_job
    rw [h]
  have hmem : (logStep
      { s with
        jobs := fun k => if k = job_id then some (applyArgs j args s.clock) else s.jobs k
        clock := s.clock + 1 } job_id args.message).jobs job_id
      = some (applyArgs j args s.clock) := by
    rw [logStep_jobs]
    simp
  obtain ⟨hd, hj⟩ := persist_status_known _ job_id _ hmem
  rw [hup]
  refine ⟨hd.trans hj.symm, ?_⟩
  unfold load_job restartState
  simp only
  rw [hd, hj]

/-- Witness for claim C3 at a concrete one-job store. -/
theorem c3_persist_matches_memory_witness :
    storeW.jobs "job-1" = some jobW
      ∧ ((update_job storeW "job-1" argsW).disk "job-1"
            = (update_job storeW "job-1" argsW).jobs "job-1"
          ∧ (load_job (restartState (update_job storeW "job-1" argsW)) "job-1").1
              = (update_job storeW "job-1" argsW).jobs "job-1") :=
  ⟨rfl, c3_persist_matches_memory storeW "job-1" argsW jobW rfl⟩

/-- Claim C10: the download endpoint is determined solely by whether the
final.mp4 file of the job directory exists: it never consults the job
record, it answers the not-ready JSON body (not a 404 and not a crash)
whenever the file is absent, and it answers the file whenever the file
exists, whatever the recorded status. -/
theorem c10_download_by_file_only (fileExistsFn : String → Bool)
    (m m2 : String → Option JobRecord) (job_id : String) :
    download_video fileExistsFn m job_id = download_video fileExistsFn m2 job_id
      ∧ (fileExistsFn (finalVideoPath job_id) = true →
          download_video fileExistsFn m job_id
            = .fileResponse (finalVideoPath job_id) "video/mp4" "presentation.mp4")
      ∧ (fileExistsFn (finalVideoPath job_id) = false →
          download_video fileExistsFn m job_id
            = .notReady "error" "Video not found. Job may not be completed yet.") := by
  refine ⟨rfl, fun h => ?_, fun h => ?_⟩
  · unfold download_video
    rw [h]
    rfl
  · unfold download_video
    rw [h]
    rfl

/-- Witness for claim C10: with only the final video of job j on disk, the
download endpoint returns the file for j whatever the job map says, and
the not-ready body for the unknown id k. -/
theorem c10_download_by_file_only_witness :
    download_video fsW (fun _ => none) "j"
        = .fileResponse (finalVideoPath "j") "video/mp4" "presentation.mp4"
      ∧ download_video fsW (fun _ => none) "k"
          = .notReady "error" "Video not found. Job may not be completed yet." :=
  ⟨(c10_download_by_file_only fsW (fun _ => none) (fun _ => none) "j").2.1 (by decide),
    (c10_download_by_file_only fsW (fun _ => none) (fun _ => none) "k").2.2 (by decide)⟩

theorem reportsOf_append (l1 l2 : List Event) :
    reportsOf (l1 ++ l2) = reportsOf l1 ++ reportsOf l2 := by
  simp [reportsOf]

theorem ttsLoop_reports (env : PipelineEnv) (l : List (Nat × String)) :
    reportsOf (ttsLoop env l).2 = [] := by
  induction l with
  | nil => rfl
  | cons p rest ih =>
    obtain ⟨i, text⟩ := p
    by_cases ht : text = ""
    · simpa [ttsLoop, ht] using ih
    · by_cases hok : env.ttsOk i
      · cases hrec : ttsLoop env rest with
        | mk res evs =>
          rw [hrec] at ih
          cases res with
          | ok ds => simpa [ttsLoop, ht, hok, hrec, reportsOf, progressOfEvent] using ih
          | error e => simpa [ttsLoop, ht, hok, hrec, reportsOf, progressOfEvent] using ih
      · simp [ttsLoop, ht, hok, reportsOf, progressOfEvent]

theorem exportFallback_reports (env : PipelineEnv) :
    reportsOf (exportFallback env).2 = [] := by
  unfold exportFallback
  split_ifs <;> simp [reportsOf, progressOfEvent]

theorem exportSizeWait_reports (env : PipelineEnv) :
    reportsOf (exportSizeWait env).2 = [] := by
  unfold exportSizeWait
  split_ifs <;> simp [reportsOf, progressOfEvent]

theorem exportStage_reports (env : PipelineEnv) (ds : List (Nat × ℚ)) :
    reportsOf (exportStage env ds).2 = [] := by
  unfold exportStage
  by_cases hs : env.saveCopyOk = true
  · simp only [hs, if_true]
    cases hf : exportFallback env with
    | mk fres fevs =>
      have h1 : List.filterMap progressOfEvent fevs = [] := by
        have := exportFallback_reports env
        rw [hf] at this
        exact this
      cases fres with
      | error e =>
        simp only [reportsOf, List.filterMap_append, List.filterMap_cons,
          progressOfEvent, h1, List.append_nil, List.nil_append, List.filterMap_nil]
      | ok fileSeen =>
        by_cases hseen : fileSeen = true
        · simp only [hseen, if_true]
          cases hw : exportSizeWait env with
          | mk wres wevs =>
            have h2 : List.filterMap progressOfEvent wevs = [] := by
              have := exportSizeWait_reports env
              rw [hw] at this
              exact this
            cases wres with
            | error e =>
              simp only [reportsOf, List.filterMap_append, List.filterMap_cons,
                progressOfEvent, h1, h2, List.append_nil, List.nil_append,
                List.filterMap_nil]
            | ok u =>
              by_cases hr : env.rawReadable = true
              · simp only [hr, if_true]
                simp only [reportsOf, List.filterMap_append, List.filterMap_cons,
                  List.filterMap_nil, progressOfEvent, h1, h2, List.append_nil,
                  List.nil_append]
              · simp only [hr, if_false, Bool.false_eq_true]
                simp only [reportsOf, List.filterMap_append, List.filterMap_cons,
                  progressOfEvent, h1, h2, List.append_nil, List.nil_append,
                  List.filterMap_nil]
        · simp only [Bool.not_eq_true] at hseen
          simp only [hseen, Bool.false_eq_true, if_false]
          simp only [reportsOf, List.filterMap_append, List.filterMap_cons,
            progressOfEvent, h1, List.append_nil, List.nil_append, List.filterMap_nil]
  · simp only [Bool.not_eq_true] at hs
    simp only [hs, Bool.false_eq_true, if_false]
    simp only [reportsOf, List.filterMap_cons, List.filterMap_nil, progressOfEvent]

theorem muxStage_reports (env : PipelineEnv) :
    reportsOf (muxStage env).2 = [] := by
  unfold muxStage
  split_ifs <;> simp [reportsOf, progressOfEvent]

theorem run_pipeline_reports (env : PipelineEnv) :
    reportsOf (run_pipeline env).2 = []
      ∨ reportsOf (run_pipeline env).2 = [12, 35]
      ∨ reportsOf (run_pipeline env).2 = [12, 35, 60]
      ∨ reportsOf (run_pipeline env).2 = [12, 35, 60, 85] := by
  unfold run_pipeline
  by_cases hc : env.azureKey = "" ∨ env.azureRegion = ""
  · left
    simp [hc, reportsOf]
  · rw [if_neg hc]
    cases hts : ttsLoop env (slideNotes env.deck) with
    | mk res evs =>
      have hevs : List.filterMap progressOfEvent evs = [] := by
        have := ttsLoop_reports env (slideNotes env.deck)
        rw [hts] at this
        exact this
      cases res with
      | error e =>
        right; left
        simp [reportsOf_append, hevs, reportsOf, progressOfEvent]
      | ok ds =>
        by_cases hds : ds = []
        · right; left
          simp [hds, reportsOf_append, hevs, reportsOf, progressOfEvent]
        · dsimp only
          rw [if_neg hds]
          cases hex : exportStage env ds with
          | mk xres xevs =>
            have hx : List.filterMap progressOfEvent xevs = [] := by
              have := exportStage_reports env ds
              rw [hex] at this
              exact this
            cases xres with
            | error e =>
              right; right; left
              simp [reportsOf_append, hevs, hx, reportsOf, progressOfEvent]
            | ok u =>
              cases hmx : muxStage env with
              | mk mres mevs =>
                have hm : List.filterMap progressOfEvent mevs = [] := by
                  have := muxStage_reports env
                  rw [hmx] at this
                  exact this
                cases mres with
                | error e =>
                  right; right; right
                  simp [reportsOf_append, hevs, hx, hm, reportsOf, progressOfEvent]
                | ok u2 =>
                  right; right; right
                  simp [reportsOf_append, hevs, hx, hm, reportsOf, progressOfEvent]

theorem filterMap_onProgress_progress (tr : List Event) :
    (tr.filterMap onProgressArgs).filterMap (fun u => u.progress) = reportsOf tr := by
  induction tr with
  | nil => rfl
  | cons e rest ih => cases e <;> simp [onProgressArgs, reportsOf, progressOfEvent, ih]

theorem filterMap_onProgress_status (tr : List Event) :
    (tr.filterMap onProgressArgs).filterMap (fun u => u.status) = [] := by
  induction tr with
  | nil => rfl
  | cons e rest ih => cases e <;> simp [onProgressArgs, ih]

theorem terminalUpdate_progress (env : PipelineEnv) :
    (terminalUpdate env).progress = some 100 := by
  unfold terminalUpdate
  cases (run_pipeline env).1 <;> rfl

/-- Claim C1: within one job the progress values written by update_job are
non-decreasing: starting from the value 5 set at creation, the pipeline
reports the fixed checkpoints 12, 35, 60, 85 in order (a prefix of them if
it fails early) and both terminal updates write 100, so every update that
supplies a progress writes one greater than or equal to the current
value. -/
theorem c1_progress_monotone (env : PipelineEnv) (job_id filename : String)
    (st : PipelineSettings) (clock : Nat) :
    List.Chain' (fun a b => a ≤ b)
      ((createJobRecord job_id filename st clock).progress
        :: (jobRunUpdates env).filterMap (fun u => u.progress)) := by
  have hlist : (jobRunUpdates env).filterMap (fun u => u.progress)
      = reportsOf (run_pipeline env).2 ++ [100] := by
    unfold jobRunUpdates
    rw [List.filterMap_append, filterMap_onProgress_progress]
    simp [terminalUpdate_progress]
  rw [hlist]
  have hcj : (createJobRecord job_id filename st clock).progress = 5 := rfl
  rw [hcj]
  rcases run_pipeline_reports env with h | h | h | h <;> rw [h] <;>
    simp [List.chain'_cons]

/-- Claim C2: the status written at creation is processing, and the only
later status write is the single terminal one, completed or error; so the
status transitions at most once, never backward, and the terminal states
are final within the run. -/
theorem c2_status_single_transition (env : PipelineEnv) (job_id filename : String)
    (st : PipelineSettings) (clock : Nat) :
    ((createJobRecord job_id filename st clock).status
        :: (jobRunUpdates env).filterMap (fun u => u.status))
        = ["processing", "completed"]
      ∨ ((createJobRecord job_id filename st clock).status
          :: (jobRunUpdates env).filterMap (fun u => u.status))
          = ["processing", "error"] := by
  unfold jobRunUpdates
  rw [List.filterMap_append, filterMap_onProgress_status]
  cases hr : (run_pipeline env).1 with
  | ok r =>
    left
    simp [terminalUpdate, hr, createJobRecord]
  | error e =>
    right
    simp [terminalUpdate, hr, createJobRecord]

theorem terminalUpdate_of_ok (env : PipelineEnv) (r : PipelineResult)
    (h : (run_pipeline env).1 = .ok r) :
    (terminalUpdate env).status = some "completed" := by
  unfold terminalUpdate
  rw [h]

theorem terminalUpdate_of_error (env : PipelineEnv) (e : String)
    (h : (run_pipeline env).1 = .error e) :
    (terminalUpdate env).status = some "error" := by
  unfold terminalUpdate
  rw [h]

theorem extractNotesFrom_text (deck : List String) :
    ∀ idx n, n ∈ extractNotesFrom idx deck → ∃ raw ∈ deck, n.text = pyStrip raw := by
  induction deck with
  | nil => intro idx n h; simp [extractNotesFrom] at h
  | cons raw rest ih =>
    intro idx n h
    simp only [extractNotesFrom, List.mem_cons] at h
    rcases h with h | h
    · exact ⟨raw, List.mem_cons_self _ _, by rw [h]⟩
    · obtain ⟨r, hr, he⟩ := ih (idx + 1) n h
      exact ⟨r, List.mem_cons_of_mem _ hr, he⟩

theorem slideNotes_all_empty (deck : List String)
    (h : ∀ raw ∈ deck, pyStrip raw = "") :
    ∀ p ∈ slideNotes deck, p.2 = "" := by
  intro p hp
  simp only [slideNotes, extract_slide_notes, List.mem_map] at hp
  obtain ⟨n, hn, he⟩ := hp
  obtain ⟨raw, hraw, ht⟩ := extractNotesFrom_text deck 1 n hn
  rw [← he]
  simpa [ht] using h raw hraw

theorem ttsLoop_all_empty (env : PipelineEnv) (l : List (Nat × String))
    (h : ∀ p ∈ l, p.2 = "") : ttsLoop env l = (.ok [], []) := by
  induction l with
  | nil => rfl
  | cons p rest ih =>
    obtain ⟨i, text⟩ := p
    have ht : text = "" := h (i, text) (List.mem_cons_self _ _)
    have := ih fun q hq => h q (List.mem_cons_of_mem _ hq)
    simpa [ttsLoop, ht] using this

/-- Claim C4: a deck in which no slide has non-empty stripped speaker
notes makes run_pipeline raise an error before any synthesis call is
issued, and the job therefore terminates in error. -/
theorem c4_no_notes_error_before_synthesis (env : PipelineEnv)
    (h : ∀ raw ∈ env.deck, pyStrip raw = "") :
    (∃ e, (run_pipeline env).1 = .error e)
      ∧ (run_pipeline env).2.filter isSynthesisCall = []
      ∧ (terminalUpdate env).status = some "error" := by
  by_cases hc : env.azureKey = "" ∨ env.azureRegion = ""
  · have hrp : run_pipeline env = (.error credsErrorMessage, []) := by
      unfold run_pipeline
      rw [if_pos hc]
    refine ⟨⟨credsErrorMessage, by rw [hrp]⟩, by rw [hrp]; rfl,
      terminalUpdate_of_error env credsErrorMessage (by rw [hrp])⟩
  · have hl : ttsLoop env (slideNotes env.deck) = (.ok [], []) :=
      ttsLoop_all_empty env (slideNotes env.deck) (slideNotes_all_empty env.deck h)
    have hrp : run_pipeline env
        = (.error noNotesErrorMessage,
            [.report "notes" 12 "Extracting slide notes", .extractNotes,
              .report "tts" 35 "Generating Azure TTS from notes"]) := by
      unfold run_pipeline
      rw [if_neg hc, hl]
      simp
    refine ⟨⟨noNotesErrorMessage, by rw [hrp]⟩, by rw [hrp]; rfl,
      terminalUpdate_of_error env noNotesErrorMessage (by rw [hrp])⟩

/-- Witness for claim C4 at a concrete deck whose two slides have blank
notes. -/
theorem c4_no_notes_error_before_synthesis_witness :
    (∀ raw ∈ envNoNotesW.deck, pyStrip raw = "")
      ∧ ((∃ e, (run_pipeline envNoNotesW).1 = .error e)
          ∧ (run_pipeline envNoNotesW).2.filter isSynthesisCall = []
          ∧ (terminalUpdate envNoNotesW).status = some "error") :=
  ⟨by decide, c4_no_notes_error_before_synthesis envNoNotesW (by decide)⟩

/-- Counterexample for claim C5 as stated: with the synthesis credentials
absent, run_pipeline does not fail at notes-complete; it fails before
notes extraction even starts, so the trace is empty and in particular
contains no notes extraction and no notes progress report. -/
theorem c5_counterexample :
    envNoCredsW.azureKey = ""
      ∧ (run_pipeline envNoCredsW).1 = .error credsErrorMessage
      ∧ (run_pipeline envNoCredsW).2 = []
      ∧ ¬ (Event.extractNotes ∈ (run_pipeline envNoCredsW).2
            ∨ Event.report "notes" 12 "Extracting slide notes" ∈ (run_pipeline envNoCredsW).2) := by
  have hc : envNoCredsW.azureKey = "" ∨ envNoCredsW.azureRegion = "" := Or.inl rfl
  have hrp : run_pipeline envNoCredsW = (.error credsErrorMessage, []) := by
    unfold run_pipeline
    rw [if_pos hc]
  refine ⟨rfl, by rw [hrp], by rw [hrp], ?_⟩
  rw [hrp]
  simp

/-- Claim C5 as amended: if either synthesis credential is absent,
run_pipeline fails immediately during the pre-flight credential check,
while the job is still at the upload stage and before notes extraction,
with the descriptive credentials error and before any external call
(synthesis service, export host, media tool); the job goes straight to
error. -/
theorem c5_missing_creds_failfast (env : PipelineEnv)
    (h : env.azureKey = "" ∨ env.azureRegion = "") :
    (run_pipeline env).1 = .error credsErrorMessage
      ∧ (run_pipeline env).2 = []
      ∧ (run_pipeline env).2.filter isExternalCall = []
      ∧ ¬ Event.extractNotes ∈ (run_pipeline env).2
      ∧ (terminalUpdate env).status = some "error"
      ∧ (terminalUpdate env).progress = some 100 := by
  have hrp : run_pipeline env = (.error credsErrorMessage, []) := by
    unfold run_pipeline
    rw [if_pos h]
  refine ⟨by rw [hrp], by rw [hrp], by rw [hrp]; rfl, by rw [hrp]; simp,
    terminalUpdate_of_error env credsErrorMessage (by rw [hrp]),
    terminalUpdate_progress env⟩

/-- Witness for the amended claim C5 at a concrete environment with an
empty key. -/
theorem c5_missing_creds_failfast_witness :
    (envNoCredsW.azureKey = "" ∨ envNoCredsW.azureRegion = "")
      ∧ ((run_pipeline envNoCredsW).1 = .error credsErrorMessage
          ∧ (run_pipeline envNoCredsW).2 = []
          ∧ (run_pipeline envNoCredsW).2.filter isExternalCall = []
          ∧ ¬ Event.extractNotes ∈ (run_pipeline envNoCredsW).2
          ∧ (terminalUpdate envNoCredsW).status = some "error"
          ∧ (terminalUpdate envNoCredsW).progress = some 100) :=
  ⟨Or.inl rfl, c5_missing_creds_failfast envNoCredsW (Or.inl rfl)⟩

theorem slideDurations_cons (env : PipelineEnv) (i : Nat) (t : String)
    (ps : List (Nat × String)) :
    slideDurations env ((i, t) :: ps)
      = if t = "" then slideDurations env ps
        else (i, env.probeDuration i) :: slideDurations env ps := by
  by_cases ht : t = "" <;> simp [slideDurations, ht]

theorem dictGet_cons (j : Nat) (q : ℚ) (ds : List (Nat × ℚ)) (i : Nat) :
    dictGet ((j, q) :: ds) i = if j = i then some q else dictGet ds i := by
  by_cases h : j = i <;> simp [dictGet, List.find?_cons, h]

theorem dictGet_slideDurations (env : PipelineEnv) (deck : List String) :
    ∀ idx i : Nat,
      dictGet (slideDurations env
          ((extractNotesFrom idx deck).map fun n => (n.slide, n.text))) i
        = if idx ≤ i ∧ i < idx + deck.length then
            (if pyStrip (deck.getD (i - idx) "") = "" then none
              else some (env.probeDuration i))
          else none := by
  induction deck with
  | nil =>
    intro idx i
    have hcond : ¬ (idx ≤ i ∧ i < idx + ([] : List String).length) := by
      rw [List.length_nil]
      omega
    rw [if_neg hcond]
    simp [extractNotesFrom, slideDurations, dictGet]
  | cons raw rest ih =>
    intro idx i
    have hmap : (extractNotesFrom idx (raw :: rest)).map (fun n => (n.slide, n.text))
        = (idx, pyStrip raw)
            :: ((extractNotesFrom (idx + 1) rest).map fun n => (n.slide, n.text)) := by
      simp [extractNotesFrom]
    rw [hmap, slideDurations_cons]
    rcases Nat.lt_trichotomy i idx with hlt | heq | hgt
    · have hC : ¬ (idx ≤ i ∧ i < idx + (raw :: rest).length) := by omega
      have hA : ¬ ((idx + 1) ≤ i ∧ i < (idx + 1) + rest.length) := by omega
      rw [if_neg hC]
      by_cases ht : pyStrip raw = ""
      · rw [if_pos ht, ih (idx + 1) i, if_neg hA]
      · rw [if_neg ht, dictGet_cons, if_neg (by omega), ih (idx + 1) i, if_neg hA]
    · subst heq
      have hC : i ≤ i ∧ i < i + (raw :: rest).length := by
        refine ⟨le_refl i, ?_⟩
        simp only [List.length_cons]
        omega
      have hg0 : (raw :: rest).getD (i - i) "" = raw := by
        rw [Nat.sub_self]
        rfl
      rw [if_pos hC, hg0]
      by_cases ht : pyStrip raw = ""
      · simp only [if_pos ht]
        rw [ih (i + 1) i, if_neg (by omega)]
      · simp only [if_neg ht]
        rw [dictGet_cons, if_pos rfl]
    · have hgetD : (raw :: rest).getD (i - idx) "" = rest.getD (i - (idx + 1)) "" := by
        cases hk : i - idx with
        | zero => omega
        | succ k =>
          have hk2 : i - (idx + 1) = k := by omega
          rw [hk2]
          rfl
      by_cases hin : i < idx + 1 + rest.length
      · have hA : (idx + 1) ≤ i ∧ i < (idx + 1) + rest.length := ⟨by omega, by omega⟩
        have hC : idx ≤ i ∧ i < idx + (raw :: rest).length := by
          refine ⟨by omega, ?_⟩
          simp only [List.length_cons]
          omega
        by_cases ht : pyStrip raw = ""
        · rw [if_pos ht, ih (idx + 1) i, if_pos hA, if_pos hC, hgetD]
        · rw [if_neg ht, dictGet_cons, if_neg (by omega), ih (idx + 1) i, if_pos hA,
            if_pos hC, hgetD]
      · have hA : ¬ ((idx + 1) ≤ i ∧ i < (idx + 1) + rest.length) := by omega
        have hC : ¬ (idx ≤ i ∧ i < idx + (raw :: rest).length) := by
          simp only [List.length_cons]
          omega
        by_cases ht : pyStrip raw = ""
        · rw [if_pos ht, ih (idx + 1) i, if_neg hA, if_neg hC]
        · rw [if_neg ht, dictGet_cons, if_neg (by omega), ih (idx + 1) i, if_neg hA,
            if_neg hC]

theorem dictGet_slideNotes (env : PipelineEnv) (i : Nat) (h1 : 1 ≤ i)
    (h2 : i ≤ env.deck.length) :
    dictGet (slideDurations env (slideNotes env.deck)) i
      = if pyStrip (env.deck.getD (i - 1) "") = "" then none
        else some (env.probeDuration i) := by
  have hmain := dictGet_slideDurations env env.deck 1 i
  rw [if_pos ⟨h1, by omega⟩] at hmain
  simpa [slideNotes, extract_slide_notes] using hmain

theorem dictGet_append (l1 l2 : List (Nat × ℚ)) (i : Nat) :
    dictGet (l1 ++ l2) i
      = match dictGet l1 i with
        | some q => some q
        | none => dictGet l2 i := by
  induction l1 with
  | nil => simp [dictGet]
  | cons p t ih =>
    obtain ⟨j, q⟩ := p
    by_cases h : j = i
    · simp [List.cons_append, dictGet_cons, h]
    · simp [List.cons_append, dictGet_cons, h, ih]

theorem dictGet_rangeMap_none (f : Nat → ℚ) (n i : Nat) (h : n < i) :
    dictGet ((List.range n).map fun k => (k + 1, f (k + 1))) i = none := by
  have hfind : List.find? (fun p => p.1 == i)
      ((List.range n).map fun k => (k + 1, f (k + 1))) = none := by
    apply List.find?_eq_none.mpr
    intro p hp
    simp only [List.mem_map, List.mem_range] at hp
    obtain ⟨k, hk, rfl⟩ := hp
    simp only [beq_iff_eq]
    omega
  simp [dictGet, hfind]

theorem dictGet_rangeMap (f : Nat → ℚ) (n : Nat) :
    ∀ i, 1 ≤ i → i ≤ n →
      dictGet ((List.range n).map fun k => (k + 1, f (k + 1))) i = some (f i) := by
  induction n with
  | zero => intro i h1 h2; omega
  | succ m ih =>
    intro i h1 h2
    rw [List.range_succ, List.map_append, dictGet_append]
    by_cases hi : i ≤ m
    · rw [ih i h1 hi]
    · have hieq : i = m + 1 := by omega
      rw [dictGet_rangeMap_none f m i (by omega)]
      subst hieq
      simp [dictGet_cons]

theorem ttsLoop_ok_eq (env : PipelineEnv) (l : List (Nat × String)) :
    ∀ ds : List (Nat × ℚ), (ttsLoop env l).1 = .ok ds → ds = slideDurations env l := by
  induction l with
  | nil =>
    intro ds h
    simp [ttsLoop] at h
    simpa [slideDurations] using h.symm
  | cons p rest ih =>
    intro ds h
    obtain ⟨i, text⟩ := p
    by_cases ht : text = ""
    · rw [slideDurations_cons, if_pos ht]
      apply ih
      simpa [ttsLoop, ht] using h
    · by_cases hok : env.ttsOk i
      · cases hrec : ttsLoop env rest with
        | mk res evs =>
          cases res with
          | ok ds0 =>
            simp only [ttsLoop, if_neg ht, if_pos hok, hrec] at h
            rw [slideDurations_cons, if_neg ht, ← ih ds0 (by rw [hrec])]
            injection h with h2
            exact h2.symm
          | error e =>
            exfalso
            simp [ttsLoop, ht, hok, hrec] at h
      · exfalso
        simp [ttsLoop, ht, hok] at h

theorem ttsLoop_fst_all_ok (env : PipelineEnv) (htts : ∀ i, env.ttsOk i = true) :
    ∀ l : List (Nat × String), (ttsLoop env l).1 = .ok (slideDurations env l) := by
  intro l
  induction l with
  | nil => rfl
  | cons p rest ih =>
    obtain ⟨i, text⟩ := p
    by_cases ht : text = ""
    · rw [slideDurations_cons, if_pos ht]
      simpa [ttsLoop, ht] using ih
    · cases hrec : ttsLoop env rest with
      | mk res evs =>
        rw [hrec] at ih
        cases res with
        | ok ds0 =>
          have hds0 : ds0 = slideDurations env rest := by simpa using ih
          rw [slideDurations_cons, if_neg ht]
          simp [ttsLoop, ht, htts i, hrec, hds0]
        | error e =>
          exfalso
          simp at ih

/-- Claim C7: whenever the synthesis loop succeeded, the advance time the
export stage applies to slide i before invoking export equals the measured
narration duration of slide i when that slide has non-empty notes and the
fixed fallback 2.0 seconds otherwise, plus the head-silence and
tail-silence padding; and the timings reapplied to the reopened saved copy
are computed by the identical formula over the same recorded durations,
yielding the same per-slide values without recomputation. -/
theorem c7_advance_time_formula (env : PipelineEnv) (ds : List (Nat × ℚ))
    (hds : (ttsLoop env (slideNotes env.deck)).1 = .ok ds)
    (i : Nat) (h1 : 1 ≤ i) (h2 : i ≤ env.deck.length) :
    dictGet (applyTimingsFirstOpen env.deck.length ds) i
        = some ((if pyStrip (env.deck.getD (i - 1) "") = "" then 2
                  else env.probeDuration i)
                + DEFAULT_SILENCE_HEAD + DEFAULT_SILENCE_TAIL)
      ∧ applyTimingsReopened env.deck.length ds
          = applyTimingsFirstOpen env.deck.length ds := by
  have hds2 : ds = slideDurations env (slideNotes env.deck) :=
    ttsLoop_ok_eq env (slideNotes env.deck) ds hds
  subst hds2
  refine ⟨?_, rfl⟩
  have hr := dictGet_rangeMap
    (fun j => (dictGet (slideDurations env (slideNotes env.deck)) j).getD 2
      + DEFAULT_SILENCE_HEAD + DEFAULT_SILENCE_TAIL) env.deck.length i h1 h2
  simp only [] at hr
  rw [show applyTimingsFirstOpen env.deck.length (slideDurations env (slideNotes env.deck))
      = (List.range env.deck.length).map (fun k =>
          (k + 1, (dictGet (slideDurations env (slideNotes env.deck)) (k + 1)).getD 2
            + DEFAULT_SILENCE_HEAD + DEFAULT_SILENCE_TAIL)) from rfl]
  rw [hr, dictGet_slideNotes env i h1 h2]
  by_cases hn : pyStrip (env.deck.getD (i - 1) "") = ""
  · simp only [if_pos hn]
    rfl
  · simp only [if_neg hn]
    rfl

/-- Witness for claim C7 at a three-slide deck with notes on slides one
and three only, checked at the empty slide two. -/
theorem c7_advance_time_formula_witness :
    (ttsLoop envTimingW (slideNotes envTimingW.deck)).1
        = .ok (slideDurations envTimingW (slideNotes envTimingW.deck))
      ∧ (1 : Nat) ≤ 2 ∧ 2 ≤ envTimingW.deck.length
      ∧ (dictGet (applyTimingsFirstOpen envTimingW.deck.length
            (slideDurations envTimingW (slideNotes envTimingW.deck))) 2
          = some ((if pyStrip (envTimingW.deck.getD (2 - 1) "") = "" then 2
                    else envTimingW.probeDuration 2)
                  + DEFAULT_SILENCE_HEAD + DEFAULT_SILENCE_TAIL)
        ∧ applyTimingsReopened envTimingW.deck.length
              (slideDurations envTimingW (slideNotes envTimingW.deck))
            = applyTimingsFirstOpen envTimingW.deck.length
                (slideDurations envTimingW (slideNotes envTimingW.deck))) :=
  ⟨rfl, by decide, by decide,
    c7_advance_time_formula envTimingW
      (slideDurations envTimingW (slideNotes envTimingW.deck)) rfl
      2 (by decide) (by decide)⟩

theorem extractNotesFrom_mem_of_raw (deck : List String) :
    ∀ idx raw, raw ∈ deck → ∃ n ∈ extractNotesFrom idx deck, n.text = pyStrip raw := by
  induction deck with
  | nil => intro idx raw h; simp at h
  | cons a rest ih =>
    intro idx raw h
    rcases List.mem_cons.mp h with rfl | h2
    · exact ⟨_, List.mem_cons_self _ _, rfl⟩
    · obtain ⟨n, hn, he⟩ := ih (idx + 1) raw h2
      exact ⟨n, List.mem_cons_of_mem _ hn, he⟩

theorem slideDurations_ne_nil (env : PipelineEnv)
    (h : ∃ raw ∈ env.deck, pyStrip raw ≠ "") :
    slideDurations env (slideNotes env.deck) ≠ [] := by
  obtain ⟨raw, hmem, hne⟩ := h
  obtain ⟨n, hn, he⟩ := extractNotesFrom_mem_of_raw env.deck 1 raw hmem
  intro hnil
  have hpair : (n.slide, n.text) ∈ slideNotes env.deck := by
    refine List.mem_map.mpr ⟨n, ?_, rfl⟩
    simpa [extract_slide_notes] using hn
  have hval := List.filterMap_eq_nil_iff.mp hnil (n.slide, n.text) hpair
  rw [he] at hval
  simp [hne] at hval

/-- Claim C8: when the primary timed-export call ends with a terminal
status other than success but the save-as fallback produces a file within
the bounded existence wait and that file is non-empty within the size
wait, run_pipeline issues the fallback save and still returns success, so
the job reaches completed rather than failing (all other stages
succeeding). -/
theorem c8_fallback_absorbed (env : PipelineEnv)
    (hkey : ¬ env.azureKey = "") (hregion : ¬ env.azureRegion = "")
    (hnotes : ∃ raw ∈ env.deck, pyStrip raw ≠ "")
    (htts : ∀ i, env.ttsOk i = true)
    (hsave : env.saveCopyOk = true)
    (hprimary : ¬ env.createVideoStatus = 3)
    (hfb1 : env.saveAs1Ok = true)
    (hfb2 : env.fallbackFileExists = true)
    (hsize : env.rawNonEmpty = true)
    (hread : env.rawReadable = true)
    (hconcat : env.concatOk = true)
    (hnarr : env.narrationExists = true)
    (hmuxok : env.muxOk = true) :
    Event.saveAsCall 1 ∈ (run_pipeline env).2
      ∧ (∃ r, (run_pipeline env).1 = .ok r)
      ∧ (terminalUpdate env).status = some "completed"
      ∧ (terminalUpdate env).progress = some 100 := by
  have hcreds : ¬ (env.azureKey = "" ∨ env.azureRegion = "") := fun hor =>
    hor.elim hkey hregion
  have hne : slideDurations env (slideNotes env.deck) ≠ [] :=
    slideDurations_ne_nil env hnotes
  rcases hts : ttsLoop env (slideNotes env.deck) with ⟨res, evs⟩
  have hres : res = .ok (slideDurations env (slideNotes env.deck)) := by
    have hh := ttsLoop_fst_all_ok env htts (slideNotes env.deck)
    rw [hts] at hh
    exact hh
  subst hres
  have hfall : exportFallback env = (.ok true, [.saveAsCall 1]) := by
    unfold exportFallback
    rw [if_pos hprimary, if_pos hfb1, if_pos hfb2]
  have hwait : exportSizeWait env = (.ok (), []) := by
    unfold exportSizeWait
    rw [if_pos hsize]
  have hexp : exportStage env (slideDurations env (slideNotes env.deck))
      = (.ok (), [.exportOpen,
          .applyTimings 1 (applyTimingsFirstOpen env.deck.length
            (slideDurations env (slideNotes env.deck))),
          .applyTimings 2 (applyTimingsReopened env.deck.length
            (slideDurations env (slideNotes env.deck))),
          .createVideoCall] ++ [.saveAsCall 1] ++ [] ++ [.probeVideoCall]) := by
    unfold exportStage
    rw [if_pos hsave, hfall]
    dsimp only
    rw [if_pos rfl, hwait]
    dsimp only
    rw [if_pos hread]
  have hmux : muxStage env = (.ok (), [.concatCall, .muxCall]) := by
    unfold muxStage
    rw [if_pos hconcat, if_pos hnarr, if_pos hmuxok]
  have hrp : run_pipeline env
      = (.ok { final_video := env.outDir ++ "/final.mp4"
               telemetry := env.telemetryData
               notes_with_text := ((slideNotes env.deck).filter fun p => p.2 != "").length
               slides_total := (slideNotes env.deck).length },
         [.report "notes" 12 "Extracting slide notes", .extractNotes,
           .report "tts" 35 "Generating Azure TTS from notes"] ++ evs
           ++ [.report "ppt_export" 60 "Exporting animated video via PowerPoint"]
           ++ ([.exportOpen,
                .applyTimings 1 (applyTimingsFirstOpen env.deck.length
                  (slideDurations env (slideNotes env.deck))),
                .applyTimings 2 (applyTimingsReopened env.deck.length
                  (slideDurations env (slideNotes env.deck))),
                .createVideoCall] ++ [.saveAsCall 1] ++ [] ++ [.probeVideoCall])
           ++ [.report "mux" 85 "FFmpeg muxing"] ++ [.concatCall, .muxCall]) := by
    unfold run_pipeline
    rw [if_neg hcreds, hts]
    dsimp only
    rw [if_neg hne, hexp]
    dsimp only
    rw [hmux]
  refine ⟨?_, ⟨_, by rw [hrp]⟩, terminalUpdate_of_ok env _ (by rw [hrp]),
    terminalUpdate_progress env⟩
  rw [hrp]
  simp [List.mem_append]

/-- Witness for claim C8 at a concrete environment whose primary export
status is 2 while everything else behaves. -/
theorem c8_fallback_absorbed_witness :
    ¬ envFallbackW.createVideoStatus = 3
      ∧ (Event.saveAsCall 1 ∈ (run_pipeline envFallbackW).2
          ∧ (∃ r, (run_pipeline envFallbackW).1 = .ok r)
          ∧ (terminalUpdate envFallbackW).status = some "completed"
          ∧ (terminalUpdate envFallbackW).progress = some 100) :=
  ⟨by decide,
    c8_fallback_absorbed envFallbackW (by decide) (by decide) (by decide)
      (fun i => rfl) rfl (by decide) rfl rfl rfl rfl rfl rfl rfl⟩
